import Mathlib

/-!
# Verification of the workbench core (auth gate, rate limiter, repository lifecycle)

Shallow embedding of the Go sources of The-Skyscape/workbench:
* `internal/ratelimit.go` — sliding-window rate limiter,
* `controllers/auth.go` and the `AuthController` revision in
  `controllers/workbench.go` — signup/signin handlers,
* the repository lifecycle (`CloneRepository`, `PullRepository`,
  `DeleteRepository`, `parseRepoName`) in the revision that is consistent
  with `internal/repositories_test.go`.

Go strings are modelled as Lean `String`s; the handful of `strings.*`
library functions the code uses are re-implemented structurally over
`List Char` so that every definition evaluates by kernel reduction.
Int instants are integers (seconds); the container executor and the
external credential store are oracles passed in as parameters.
-/

namespace Workbench

/-! ## Go string primitives (strings.Split, TrimSuffix, TrimSpace, ToLower, Contains) -/

/-- `strings.Split(s, sep)` for a one-character separator, on char lists.
Always returns at least one (possibly empty) segment, like Go. -/
def splitCharL (sep : Char) : List Char → List (List Char)
  | [] => [[]]
  | c :: rest =>
    let r := splitCharL sep rest
    if c = sep then [] :: r
    else
      match r with
      | h :: t => (c :: h) :: t
      | [] => [[c]]

/-- `strings.Split` on `String`s (single-character separator). -/
def goSplit (s : String) (sep : Char) : List String :=
  (splitCharL sep s.toList).map (fun l => String.mk l)

/-- `strings.TrimSuffix(s, suffix)`: drop `suffix` if `s` ends with it. -/
def goTrimSuffix (s suffix : String) : String :=
  if suffix.toList.isSuffixOf s.toList then
    String.mk (s.toList.take (s.toList.length - suffix.toList.length))
  else s

/-- `strings.HasPrefix(s, pre)`. -/
def goHasPre (s pre : String) : Bool :=
  pre.toList.isPrefixOf s.toList

/-- `strings.TrimSpace(s)`: strip whitespace from both ends. -/
def goTrim (s : String) : String :=
  String.mk (((s.toList.dropWhile Char.isWhitespace).reverse.dropWhile
    Char.isWhitespace).reverse)

/-- `strings.ToLower(s)` (ASCII-faithful). -/
def goToLower (s : String) : String :=
  String.mk (s.toList.map Char.toLower)

/-- Substring occurrence on char lists (Go `strings.Contains` core). -/
def isInfixL (sub : List Char) : List Char → Bool
  | [] => sub.isEmpty
  | c :: rest => sub.isPrefixOf (c :: rest) || isInfixL sub rest

/-- `strings.Contains(s, sub)`. -/
def goContains (s sub : String) : Bool :=
  isInfixL sub.toList s.toList

/-- Go `parts[len(parts)-1]` (we only use it on non-empty split results). -/
def lastOrEmpty (parts : List String) : String :=
  match parts.getLast? with
  | some s => s
  | none => ""

/-! ## `parseRepoName` (repository-name derivation)

Embedded from the `parseRepoName` revision in package `internal` that is
consistent with `TestParseRepoName` in `internal/repositories_test.go`:
strip spaces, one trailing slash, then a `.git` suffix; SSH short-form
URLs (`git@host:path`) split on `:` then `/`; otherwise split on `/`;
empty string when no segment resolves. -/

def parseRepoName (url : String) : String :=
  -- Handle empty URL
  if url = "" then ""
  else
    -- Clean up the URL
    let url := goTrim url
    let url := goTrimSuffix url "/"    -- Remove trailing slash
    let url := goTrimSuffix url ".git"
    -- Handle SSH URLs (git@github.com:user/repo)
    if goHasPre url "git@" then
      match goSplit url ':' with
      | _ :: path :: _ =>
        let parts := goSplit path '/'
        let last := lastOrEmpty parts
        if last ≠ "" then last else ""
      | _ => ""
    else
      -- Handle HTTPS URLs
      let parts := goSplit url '/'
      let last := lastOrEmpty parts
      if last ≠ "" then last else ""

example : parseRepoName "https://github.com/user/repo.git" = "repo" := by decide
example : parseRepoName "git@github.com:user/repo.git" = "repo" := by decide
example : parseRepoName "https://github.com/user/repo/" = "repo" := by decide
example : parseRepoName "" = "" := by decide
example : parseRepoName "https://" = "" := by decide
example : parseRepoName "invalid-url" = "invalid-url" := by decide
example : parseRepoName "https://github.com/" = "github.com" := by decide
example : parseRepoName "/" = "" := by decide
example : parseRepoName "git@bitbucket.org:team/project.git" = "project" := by decide

/-! ## RateLimiter (`internal/ratelimit.go`)

Int instants are integers (`time.Time` values, in seconds); `t.After(c)`
is `c < t` and `now.Add(-window)` is `now - window`.  The per-key map of
attempt slices is a total function `String → List Int` that defaults to
the empty list, like a Go map of slices. -/

structure RateLimiter where
  limit : Nat
  window : Int
  attempts : String → List Int

/-- `NewRateLimiter(limit, window)` (the background `cleanup` goroutine only
prunes entries that `Allow` would prune anyway, and is not modelled). -/
def NewRateLimiter (limit : Nat) (window : Int) : RateLimiter :=
  { limit := limit, window := window, attempts := fun _ => [] }

/-- `(*RateLimiter).Allow(key)`: prune the key's timestamps to those strictly
after `now - window`; reject (recording only the pruned list) when the
remaining count reaches the limit, otherwise record `now` and accept. -/
def RateLimiter.Allow (rl : RateLimiter) (key : String) (now : Int) :
    Bool × RateLimiter :=
  let cutoff := now - rl.window
  let recent := (rl.attempts key).filter (fun t => cutoff < t)
  if rl.limit ≤ recent.length then
    (false, { rl with attempts := fun k => if k = key then recent else rl.attempts k })
  else
    (true, { rl with attempts := fun k => if k = key then recent ++ [now] else rl.attempts k })

/-- `AuthRateLimiter = NewRateLimiter(5, time.Minute)`: 5 attempts per
60-second window. -/
def AuthRateLimiter : RateLimiter := NewRateLimiter 5 60

/-! ### List-level view of one key's evolution, for the sliding-window proofs -/

/-- The effect of one `Allow` call on the attempt list of the called key. -/
def stepAllow (N : Nat) (W : Int) (l : List Int) (now : Int) : Bool × List Int :=
  let recent := l.filter (fun t => now - W < t)
  if N ≤ recent.length then (false, recent) else (true, recent ++ [now])

/-- The timestamps of the calls a sequence of `Allow` invocations accepts,
starting from attempt list `l`. -/
def acceptedTimes (N : Nat) (W : Int) : List Int → List Int → List Int
  | _, [] => []
  | l, now :: ts =>
    let r := stepAllow N W l now
    if r.1 then now :: acceptedTimes N W r.2 ts else acceptedTimes N W r.2 ts

/-- The results of a sequence of `Allow` calls on one key of a limiter. -/
def runAllow (rl : RateLimiter) (key : String) : List Int → List Bool
  | [] => []
  | now :: ts =>
    let r := rl.Allow key now
    r.1 :: runAllow r.2 key ts

/-- The accepted timestamps of a sequence of `Allow` calls on one key. -/
def acceptedRun (rl : RateLimiter) (key : String) : List Int → List Int
  | [] => []
  | now :: ts =>
    let r := rl.Allow key now
    if r.1 then now :: acceptedRun r.2 key ts else acceptedRun r.2 key ts

/-- The limiter state after a sequence of `Allow` calls on one key. -/
def finalAllow (rl : RateLimiter) (key : String) : List Int → RateLimiter
  | [] => rl
  | now :: ts => finalAllow (rl.Allow key now).2 key ts

/-- Membership test for a rolling window `(a, a + W]` of duration `W`. -/
def inWindow (W : Int) (a t : Int) : Bool :=
  decide (a < t) && decide (t ≤ a + W)

example :
    runAllow AuthRateLimiter "ip" [0, 10, 20, 30, 40, 50, 70] =
      [true, true, true, true, true, false, true] := by decide
example :
    acceptedRun AuthRateLimiter "ip" [0, 10, 20, 30, 40, 50, 70] =
      [0, 10, 20, 30, 40, 70] := by decide
example :
    (finalAllow AuthRateLimiter "ip" [0, 10, 20, 30, 40, 50]).attempts "ip" =
      [0, 10, 20, 30, 40] := by decide

/-! ### Lemmas about one `Allow` call -/

lemma Allow_fst (rl : RateLimiter) (key : String) (now : Int) :
    (rl.Allow key now).1 = (stepAllow rl.limit rl.window (rl.attempts key) now).1 := by
  by_cases h : rl.limit ≤ ((rl.attempts key).filter (fun t => now - rl.window < t)).length <;>
    simp [RateLimiter.Allow, stepAllow, h]

lemma Allow_attempts_self (rl : RateLimiter) (key : String) (now : Int) :
    ((rl.Allow key now).2).attempts key
      = (stepAllow rl.limit rl.window (rl.attempts key) now).2 := by
  by_cases h : rl.limit ≤ ((rl.attempts key).filter (fun t => now - rl.window < t)).length <;>
    simp [RateLimiter.Allow, stepAllow, h]

lemma Allow_attempts_other (rl : RateLimiter) (key k : String) (now : Int)
    (hk : k ≠ key) : ((rl.Allow key now).2).attempts k = rl.attempts k := by
  by_cases h : rl.limit ≤ ((rl.attempts key).filter (fun t => now - rl.window < t)).length <;>
    simp [RateLimiter.Allow, stepAllow, h, hk]

lemma Allow_limit (rl : RateLimiter) (key : String) (now : Int) :
    (rl.Allow key now).2.limit = rl.limit := by
  by_cases h : rl.limit ≤ ((rl.attempts key).filter (fun t => now - rl.window < t)).length <;>
    simp [RateLimiter.Allow, h]

lemma Allow_window (rl : RateLimiter) (key : String) (now : Int) :
    (rl.Allow key now).2.window = rl.window := by
  by_cases h : rl.limit ≤ ((rl.attempts key).filter (fun t => now - rl.window < t)).length <;>
    simp [RateLimiter.Allow, h]

lemma acceptedRun_eq (key : String) :
    ∀ (ts : List Int) (rl : RateLimiter),
      acceptedRun rl key ts = acceptedTimes rl.limit rl.window (rl.attempts key) ts := by
  intro ts
  induction ts with
  | nil => intro rl; rfl
  | cons now ts ih =>
    intro rl
    simp only [acceptedRun, acceptedTimes]
    rw [ih (rl.Allow key now).2, Allow_fst, Allow_attempts_self, Allow_limit, Allow_window]

/-! ### The sliding-window bound -/

lemma filter_cutoff_compose (c d : Int) (h : c ≤ d) (H : List Int) :
    (H.filter (fun t => c < t)).filter (fun t => d < t)
      = H.filter (fun t => d < t) := by
  induction H with
  | nil => simp
  | cons t H ih =>
    by_cases h1 : c < t
    · by_cases h2 : d < t <;> simp [h1, h2, ih]
    · have h2 : ¬ d < t := fun hd => h1 (lt_of_le_of_lt h hd)
      simp [h1, h2, ih]

/-- Core invariant: starting from an attempt list that is the history `H`
filtered at some earlier cutoff `c`, a sorted call sequence never brings the
number of accepted timestamps inside any window `(a, a + W]` above `N`. -/
lemma accepted_window_bound (N : Nat) (W a : Int) (hW : 0 < W) :
    ∀ (ts H : List Int) (c : Int),
      List.Sorted (· ≤ ·) ts →
      (∀ t ∈ H, ∀ u ∈ ts, t ≤ u) →
      (∀ u ∈ ts, c ≤ u - W) →
      H.countP (inWindow W a) ≤ N →
      H.countP (inWindow W a)
        + (acceptedTimes N W (H.filter (fun t => c < t)) ts).countP (inWindow W a)
        ≤ N := by
  intro ts
  induction ts with
  | nil =>
    intro H c _ _ _ hH
    simpa [acceptedTimes] using hH
  | cons now ts ih =>
    intro H c hsorted hHts hc hH
    rw [List.sorted_cons] at hsorted
    obtain ⟨hnow_le, hsorted'⟩ := hsorted
    have hcut : c ≤ now - W := hc now (List.mem_cons_self _ _)
    have hfilter : (H.filter (fun t => c < t)).filter (fun t => now - W < t)
        = H.filter (fun t => now - W < t) := filter_cutoff_compose c (now - W) hcut H
    simp only [acceptedTimes, stepAllow, hfilter]
    by_cases hfull : N ≤ (H.filter (fun t => now - W < t)).length
    · -- rejected: the attempt list is only pruned, history unchanged
      simp only [hfull, if_true, if_false, ite_true, ite_false, reduceIte]
      have := ih H (now - W) hsorted'
        (fun t ht u hu => hHts t ht u (List.mem_cons_of_mem _ hu))
        (fun u hu => by have h9 : now ≤ u := hnow_le u hu; omega)
        hH
      simpa [acceptedTimes] using this
    · -- accepted: `now` joins the history
      simp only [hfull, ite_false, reduceIte]
      have hlen : (H.filter (fun t => now - W < t)).length < N := by omega
      have hH' : (H ++ [now]).countP (inWindow W a) ≤ N := by
        rw [List.countP_append]
        by_cases hwin : inWindow W a now
        · -- an in-window acceptance: the in-window history must be below N
          have hmono : H.countP (inWindow W a)
              ≤ H.countP (fun t => now - W < t) := by
            apply List.countP_mono_left
            intro t _ hpt
            have h1 : a < t := by
              have := (Bool.and_eq_true _ _).mp hpt
              exact of_decide_eq_true this.1
            have h2 : now ≤ a + W := by
              have := (Bool.and_eq_true _ _).mp hwin
              exact of_decide_eq_true this.2
            simp only [decide_eq_true_eq]
            omega
          have : H.countP (fun t => now - W < t)
              = (H.filter (fun t => now - W < t)).length :=
            List.countP_eq_length_filter _ _
          simp only [List.countP_cons, List.countP_nil, hwin, if_true, reduceIte]
          omega
        · simp only [List.countP_cons, List.countP_nil, hwin, if_false, reduceIte]
          simpa using hH
      have hshape : (H ++ [now]).filter (fun t => now - W < t)
          = H.filter (fun t => now - W < t) ++ [now] := by
        rw [List.filter_append]
        congr 1
        simp only [List.filter_cons, List.filter_nil]
        have : now - W < now := by omega
        simp [this]
      have := ih (H ++ [now]) (now - W) hsorted'
        (fun t ht u hu => by
          rcases List.mem_append.mp ht with h | h
          · exact hHts t h u (List.mem_cons_of_mem _ hu)
          · have h8 : t = now := by simpa using h
            subst h8
            exact hnow_le u hu)
        (fun u hu => by have h9 : now ≤ u := hnow_le u hu; omega)
        hH'
      rw [hshape] at this
      rw [List.countP_append, List.countP_cons, List.countP_nil] at this
      rw [List.countP_cons]
      omega

lemma exists_lowbound (W : Int) :
    ∀ ts : List Int, ∃ c : Int, ∀ u ∈ ts, c ≤ u - W := by
  intro ts
  induction ts with
  | nil => exact ⟨0, by simp⟩
  | cons u ts ih =>
    obtain ⟨c, hc⟩ := ih
    refine ⟨min c (u - W), ?_⟩
    intro v hv
    rcases List.mem_cons.mp hv with h | h
    · subst h; exact min_le_right _ _
    · exact le_trans (min_le_left _ _) (hc v h)

lemma stepAllow_length_le (N : Nat) (W : Int) (l : List Int) (now : Int)
    (h : l.length ≤ N) : ((stepAllow N W l now).2).length ≤ N := by
  by_cases hfull : N ≤ (l.filter (fun t => now - W < t)).length
  · simp only [stepAllow, hfull, if_true, reduceIte]
    exact le_trans (List.length_filter_le _ _) h
  · simp only [stepAllow, hfull, if_false, reduceIte, List.length_append,
      List.length_singleton]
    omega

lemma finalAllow_limit (key : String) :
    ∀ (ts : List Int) (rl : RateLimiter), (finalAllow rl key ts).limit = rl.limit := by
  intro ts
  induction ts with
  | nil => intro rl; rfl
  | cons now ts ih => intro rl; rw [finalAllow, ih, Allow_limit]

lemma finalAllow_attempts_le (key : String) :
    ∀ (ts : List Int) (rl : RateLimiter),
      (rl.attempts key).length ≤ rl.limit →
      ((finalAllow rl key ts).attempts key).length ≤ rl.limit := by
  intro ts
  induction ts with
  | nil => intro rl h; exact h
  | cons now ts ih =>
    intro rl h
    rw [finalAllow]
    have h2 := ih (rl.Allow key now).2
    rw [Allow_limit, Allow_attempts_self] at h2
    exact h2 (stepAllow_length_le _ _ _ _ h)

/-! ## Data model (`models/`, devtools `authentication` records as used here) -/

/-- A credential-store user record (external collaborator; the fields the
core reads: identifier, handle/email signin keys, credential, admin flag). -/
structure User where
  id : Nat
  name : String
  handle : String
  email : String
  password : String
  isAdmin : Bool
  deriving DecidableEq

/-- A session record (`authentication.Session{UserID: user.ID}`). -/
structure Session where
  userId : Nat
  deriving DecidableEq

/-- `models.Activity` (`models/activity.go`; the `Timestamp`/`Metadata`
fields carry no information the handlers branch on and are omitted). -/
structure Activity where
  type : String
  repository : String
  description : String
  author : String
  deriving DecidableEq

/-- `models.Repository` (`models/repository.go`). -/
structure Repository where
  name : String
  url : String
  localPath : String
  description : String
  isPrivate : Bool
  deriving DecidableEq

/-- The mutable state an authentication handler touches: the user store,
session store, activity log and the global `AuthRateLimiter`. -/
structure AuthState where
  users : List User
  sessions : List Session
  activities : List Activity
  limiter : RateLimiter

/-- Raw signup form values (`r.FormValue` results). -/
structure SignupForm where
  name : String
  handle : String
  email : String
  password : String

/-- Raw signin form values. -/
structure SigninForm where
  handle : String
  password : String

/-- Outcomes of the external collaborators a handler consults
(credential-store insert, session insert, token generation), plus the
opaque error texts `RenderError` would surface for them. -/
structure Ext where
  signupFails : Bool
  signupErrMsg : String
  sessionFails : Bool
  tokenFails : Bool
  tokenErrMsg : String

/-- The externally observable handler outcome: an inline rendered error
message, or a page refresh (after the session cookie was set). -/
inductive HResp where
  | errorMsg (msg : String)
  | refresh
  deriving DecidableEq

/-- Modelled from the spec: the external CredentialStore's signup
(`Signup(name, email, handle, password, true)` in the devtools dependency,
not part of this repository's sources) creates the admin user record from
the already-validated fields (§2, §4.2). The identifier is the user count. -/
def credSignup (users : List User) (name email handle password : String) : User :=
  { id := users.length, name := name, handle := handle, email := email,
    password := password, isAdmin := true }

/-- Modelled from the spec: the external CredentialStore's signin
(`Signin(handle, password)` in the devtools dependency, not part of this
repository's sources) looks the user up by handle or email and verifies the
password, failing on lookup failure or verification failure (§2, §4.2).
Verification is modelled as equality with the stored credential. -/
def credSignin (users : List User) (handle password : String) : Option User :=
  match users.find? (fun u => u.handle == handle || u.email == handle) with
  | none => none
  | some u => if u.password == password then some u else none

/-! ## The `controllers/auth.go` revision of `AuthController` -/

namespace AuthC

/-- `handleSignup` (`controllers/auth.go`): user-count check, form parse,
field validation, password strength (Go's `len` counts bytes; `String.length`
counts characters — identical on ASCII passwords), credential-store signup,
`auth_signup` activity, session insert, cookie, refresh. -/
def handleSignup (st : AuthState) (form : SignupForm) (parseOk : Bool)
    (ext : Ext) : HResp × AuthState :=
  -- Check if any users exist (prevent multiple signups)
  if 0 < st.users.length then (.errorMsg "a user already exists", st)
  else if parseOk = false then (.errorMsg "invalid form data", st)
  else
    let name := goTrim form.name
    let handle := goTrim (goToLower form.handle)
    let email := goTrim (goToLower form.email)
    let password := form.password
    if name == "" || handle == "" || email == "" || password == "" then
      (.errorMsg "all fields are required", st)
    else if password.length < 8 then
      (.errorMsg "password must be at least 8 characters long", st)
    else if ext.signupFails then (.errorMsg "failed to create user", st)
    else
      let user := credSignup st.users name email handle password
      let st1 := { st with
        users := st.users ++ [user],
        activities := st.activities ++
          [⟨"auth_signup", "", "User account created", handle⟩] }
      if ext.sessionFails then (.errorMsg "failed to create session", st1)
      else (.refresh, { st1 with sessions := st1.sessions ++ [⟨user.id⟩] })

/-- `handleSignin` (`controllers/auth.go`): rate limit keyed by the bare
client address, form parse, blank check, credential check, `auth_signin`
activity, session insert, cookie, refresh. -/
def handleSignin (st : AuthState) (addr : String) (now : Int)
    (form : SigninForm) (parseOk : Bool) (ext : Ext) : HResp × AuthState :=
  -- Check rate limit by IP (clientIP := r.RemoteAddr)
  let r := st.limiter.Allow addr now
  let st := { st with limiter := r.2 }
  if r.1 = false then
    (.errorMsg "too many login attempts, please wait a minute", st)
  else if parseOk = false then (.errorMsg "invalid form data", st)
  else
    let handle := goTrim (goToLower form.handle)
    let password := form.password
    if handle == "" || password == "" then
      (.errorMsg "email/username and password are required", st)
    else
      match credSignin st.users handle password with
      | none => (.errorMsg "invalid credentials", st)
      | some user =>
        let st1 := { st with activities := st.activities ++
          [⟨"auth_signin", "", "User signed in", user.handle⟩] }
        if ext.sessionFails then (.errorMsg "failed to create session", st1)
        else (.refresh, { st1 with sessions := st1.sessions ++ [⟨user.id⟩] })

/-- One signup request's inputs. -/
structure SignupCall where
  form : SignupForm
  parseOk : Bool
  ext : Ext

/-- A sequence of signup requests against the same store. -/
def runSignups (st : AuthState) : List SignupCall → AuthState
  | [] => st
  | c :: cs => runSignups (handleSignup st c.form c.parseOk c.ext).2 cs

/-- One signin request's inputs. -/
structure SigninCall where
  now : Int
  form : SigninForm
  parseOk : Bool
  ext : Ext

/-- A sequence of signin requests from one client address: the list of
responses. -/
def runSignins (st : AuthState) (addr : String) : List SigninCall → List HResp
  | [] => []
  | c :: cs =>
    let r := handleSignin st addr c.now c.form c.parseOk c.ext
    r.1 :: runSignins r.2 addr cs

/-- The state after a sequence of signin requests from one client address. -/
def finalSignins (st : AuthState) (addr : String) : List SigninCall → AuthState
  | [] => st
  | c :: cs => finalSignins (handleSignin st addr c.now c.form c.parseOk c.ext).2 addr cs

end AuthC

/-! ## The `controllers/workbench.go` revision of `AuthController` -/

namespace WB

/-- `handleSignup` (`controllers/workbench.go`): user-count check, rate limit
keyed by `clientIP + ":signup"`, field validation, credential-store signup,
token, cookie, session insert, `user_signup` activity, refresh. -/
def handleSignup (st : AuthState) (addr : String) (now : Int)
    (form : SignupForm) (ext : Ext) : HResp × AuthState :=
  -- Check if a user already exists (single-user system)
  if 0 < st.users.length then
    (.errorMsg "A user already exists. This is a single-user system.", st)
  else
    -- Rate limiting check
    let r := st.limiter.Allow (addr ++ ":signup") now
    let st := { st with limiter := r.2 }
    if r.1 = false then
      (.errorMsg "Too many attempts. Please wait a minute and try again.", st)
    else
      let name := goTrim form.name
      let handle := goTrim (goToLower form.handle)
      let email := goTrim (goToLower form.email)
      let password := form.password
      if name == "" || handle == "" || email == "" || password == "" then
        (.errorMsg "All fields are required", st)
      else if ext.signupFails then (.errorMsg ext.signupErrMsg, st)
      else
        let user := credSignup st.users name email handle password
        let st1 := { st with users := st.users ++ [user] }
        if ext.tokenFails then (.errorMsg ext.tokenErrMsg, st1)
        else
          (.refresh, { st1 with
            sessions := st1.sessions ++ [⟨user.id⟩],
            activities := st1.activities ++
              [⟨"user_signup", "", "User created account", name⟩] })

/-- `handleSignin` (`controllers/workbench.go`): rate limit keyed by
`clientIP + ":signin"` (logging a `signin_rate_limited` activity on
rejection), blank check, credential check (logging `signin_failed`), token,
cookie, session insert, `user_signin` activity, refresh. -/
def handleSignin (st : AuthState) (addr : String) (now : Int)
    (form : SigninForm) (ext : Ext) : HResp × AuthState :=
  let r := st.limiter.Allow (addr ++ ":signin") now
  let st := { st with limiter := r.2 }
  if r.1 = false then
    (.errorMsg "Too many signin attempts. Please wait a minute and try again.",
      { st with activities := st.activities ++
        [⟨"signin_rate_limited", "", "Signin rate limited", "System"⟩] })
  else
    let handle := goTrim (goToLower form.handle)
    let password := form.password
    if handle == "" || password == "" then
      (.errorMsg "Email/username and password are required", st)
    else
      match credSignin st.users handle password with
      | none =>
        (.errorMsg "Invalid credentials",
          { st with activities := st.activities ++
            [⟨"signin_failed", "", "Failed signin attempt", "System"⟩] })
      | some user =>
        if ext.tokenFails then (.errorMsg ext.tokenErrMsg, st)
        else
          (.refresh, { st with
            sessions := st.sessions ++ [⟨user.id⟩],
            activities := st.activities ++
              [⟨"user_signin", "", "User signed in", user.handle⟩] })

end WB

/-! ## Repository lifecycle (`CloneRepository`, `PullRepository`,
`DeleteRepository`), in the revision consistent with
`internal/repositories_test.go`.

The container executor `services.CoderExec` is an oracle
`exec : String → String × Bool` mapping a shell command to its combined
output and success flag; the commands issued are collected in `trace` in
execution order. Database `Insert`/`Delete` outcomes are oracle booleans.
`filepath.Join(base, name)` is modelled as `base ++ "/" ++ name` (the name
is a single clean segment on every path considered here). -/

/-- The observable outcome of one repository-lifecycle operation. -/
structure RepoResult where
  err : Option String
  db : List Repository
  trace : List String
  activity : Option Activity
  deriving DecidableEq

/-- Error classification of a failed `git clone` from its combined output. -/
def classifyCloneErr (out : String) : String :=
  if goContains out "Permission denied" || goContains out "Could not read from remote" then
    "authentication failed - for private repos, add your SSH key to the git provider"
  else if goContains out "does not exist" || goContains out "not found" then
    "repository not found - check the URL is correct"
  else if goContains out "Could not resolve" || goContains out "unable to access" then
    "network error - check your connection and try again"
  else "failed to clone repository"

/-- Error classification of a failed `git pull` from its combined output. -/
def classifyPullErr (out : String) : String :=
  if goContains out "Permission denied" then
    "authentication failed - check your SSH key is added to the git provider"
  else if goContains out "merge conflict" || goContains out "Merge conflict" then
    "merge conflicts detected - resolve manually in VS Code"
  else if goContains out "uncommitted changes" || goContains out "Your local changes" then
    "uncommitted changes - commit or stash them first"
  else "failed to pull latest changes"

/-- The part of `CloneRepository` after the name/duplicate checks: ensure the
repos directory, check the target directory, clone, insert, log. -/
def cloneExec (exec : String → String × Bool) (insertOk : Bool)
    (db : List Repository) (url name : String) : RepoResult :=
  let mkdirCmd := "mkdir -p /home/coder/repos"
  let targetDir := "/home/coder/repos" ++ "/" ++ name
  let checkCmd := "test -d " ++ targetDir ++ " && echo exists"
  let checkOut := (exec checkCmd).1
  if goTrim checkOut == "exists" then
    { err := some ("directory " ++ name ++ " already exists - please choose a different name"),
      db := db, trace := [mkdirCmd, checkCmd], activity := none }
  else
    let cloneCmd := "git clone " ++ url ++ " " ++ targetDir ++ " 2>&1"
    let r := exec cloneCmd
    if r.2 = false then
      { err := some (classifyCloneErr r.1), db := db,
        trace := [mkdirCmd, checkCmd, cloneCmd], activity := none }
    else if insertOk = false then
      { err := some "failed to save repository", db := db,
        trace := [mkdirCmd, checkCmd, cloneCmd], activity := none }
    else
      { err := none,
        db := db ++ [⟨name, url, targetDir, "", goContains url "git@"⟩],
        trace := [mkdirCmd, checkCmd, cloneCmd],
        activity := some ⟨"repo_clone", name, "Cloned repository " ++ name, "System"⟩ }

/-- `CloneRepository(url, name)`: derive the name when blank, reject an empty
name, reject a case-insensitive duplicate (when the found record has a
non-empty name), then clone via `cloneExec`. -/
def CloneRepository (exec : String → String × Bool) (insertOk : Bool)
    (db : List Repository) (url name : String) : RepoResult :=
  let name := if name == "" then parseRepoName url else name
  -- Validate name is not empty
  if name == "" then
    { err := some "repository name cannot be empty", db := db, trace := [], activity := none }
  else
    -- Check if repository already exists (case-insensitive)
    match db.find? (fun r => goToLower r.name == goToLower name) with
    | some ex =>
      if ex.name ≠ "" then
        { err := some ("a repository named '" ++ ex.name ++ "' already exists"),
          db := db, trace := [], activity := none }
      else cloneExec exec insertOk db url name
    | none => cloneExec exec insertOk db url name

/-- `PullRepository(repoName)`: look the record up by name; if the local
directory is missing in the container, re-clone from the stored URL into the
stored path; otherwise pull and classify failures. -/
def PullRepository (exec : String → String × Bool)
    (db : List Repository) (repoName : String) : RepoResult :=
  match db.find? (fun r => r.name == repoName) with
  | none =>
    { err := some ("repository '" ++ repoName ++ "' not found"),
      db := db, trace := [], activity := none }
  | some repo =>
    let checkCmd := "test -d " ++ repo.localPath ++ " && echo exists"
    let checkOut := (exec checkCmd).1
    if goTrim checkOut ≠ "exists" then
      -- Try to re-clone if directory is missing
      let mkdirCmd := "mkdir -p /home/coder/repos"
      let cloneCmd := "git clone " ++ repo.url ++ " " ++ repo.localPath ++ " 2>&1"
      let r := exec cloneCmd
      if r.2 = false then
        { err := some "repository directory was missing and re-clone failed",
          db := db, trace := [checkCmd, mkdirCmd, cloneCmd], activity := none }
      else
        { err := none, db := db, trace := [checkCmd, mkdirCmd, cloneCmd],
          activity := some ⟨"repo_pull", repo.name,
            "Re-cloned missing repository " ++ repoName, "System"⟩ }
    else
      let pullCmd := "cd " ++ repo.localPath ++ " && git pull 2>&1"
      let r := exec pullCmd
      if r.2 = false then
        { err := some (classifyPullErr r.1), db := db,
          trace := [checkCmd, pullCmd], activity := none }
      else
        { err := none, db := db, trace := [checkCmd, pullCmd],
          activity := some ⟨"repo_pull", repoName,
            "Synced repository " ++ repoName, "System"⟩ }

/-- `DeleteRepository(name)`: look the record up by name, remove the
filesystem tree, and only then delete the database record. -/
def DeleteRepository (exec : String → String × Bool) (deleteOk : Bool)
    (db : List Repository) (name : String) : RepoResult :=
  match db.find? (fun r => r.name == name) with
  | none =>
    { err := some ("repository not found: " ++ name), db := db,
      trace := [], activity := none }
  | some repo =>
    -- Remove from filesystem
    let rmCmd := "rm -rf " ++ repo.localPath
    let r := exec rmCmd
    if r.2 = false then
      { err := some "failed to delete repository files", db := db,
        trace := [rmCmd], activity := none }
    -- Remove from database
    else if deleteOk = false then
      { err := some "failed to delete repository record", db := db,
        trace := [rmCmd], activity := none }
    else
      { err := none, db := db.eraseP (fun r => r.name == name),
        trace := [rmCmd],
        activity := some ⟨"repo_delete", name, "Deleted repository " ++ name, "System"⟩ }

/-! ## Concrete sample data for witnesses -/

/-- A sample stored user. -/
def demoUser : User :=
  { id := 0, name := "Ada", handle := "ada", email := "ada@example.com",
    password := "correct-horse", isAdmin := true }

/-- A sample state with one user and a fresh limiter. -/
def demoStOne : AuthState :=
  { users := [demoUser], sessions := [], activities := [],
    limiter := AuthRateLimiter }

/-- A sample state with no users and a fresh limiter. -/
def demoStEmpty : AuthState :=
  { users := [], sessions := [], activities := [], limiter := AuthRateLimiter }

/-- A sample signup form. -/
def demoSignupForm : SignupForm :=
  { name := "Bob", handle := "bob", email := "bob@example.com",
    password := "longenough" }

/-- External collaborators that all succeed. -/
def demoExt : Ext :=
  { signupFails := false, signupErrMsg := "", sessionFails := false,
    tokenFails := false, tokenErrMsg := "" }

/-- A limiter whose signup key for one address is already saturated. -/
def demoBusyLimiter : RateLimiter :=
  { limit := 5, window := 60,
    attempts := fun k => if k = "1.1.1.1:signup" then [0, 1, 2, 3, 4] else [] }

/-- An empty store whose limiter has five recent signup attempts recorded. -/
def demoStBusy : AuthState :=
  { users := [], sessions := [], activities := [], limiter := demoBusyLimiter }

/-- A sample repository record. -/
def demoRepo : Repository :=
  { name := "demo", url := "https://github.com/acme/demo.git",
    localPath := "/home/coder/repos/demo", description := "", isPrivate := false }

/-- Container oracle: every command succeeds; directory checks report
absence (empty output). -/
def execAllOk : String → String × Bool := fun _ => ("", true)

/-- Container oracle: the demo repository's directory exists; every command
succeeds. -/
def execDirExists : String → String × Bool := fun c =>
  if c = "test -d /home/coder/repos/demo && echo exists" then ("exists", true)
  else ("", true)

/-- Container oracle: removing the demo repository's tree fails; every other
command succeeds. -/
def execRmFails : String → String × Bool := fun c =>
  if c = "rm -rf /home/coder/repos/demo" then ("rm: cannot remove", false)
  else ("", true)

/-! ## Claim C1 — the sliding-window rate limiter -/

/-- **C1.** For every key, `RateLimiter.Allow` returns `true` for at most
`N = 5` calls whose timestamps fall within any rolling window of duration
`W = 60` seconds (first conjunct, for any monotone call sequence against the
fresh `AuthRateLimiter`); a call made when `N` pruned attempts are recorded
inside the window returns `false` and does not record the new attempt
(second conjunct: the stored list is exactly the pruned list); and once the
oldest counted attempt is strictly older than the window, a subsequent call
returns `true` again (third conjunct). The fourth conjunct is the supporting
invariant: a key of `AuthRateLimiter` never stores more than 5 attempts. -/
theorem C1_rate_limiter_rolling_window
    (key : String) (ts : List Int) (a : Int)
    (hts : List.Sorted (· ≤ ·) ts) :
    (acceptedRun AuthRateLimiter key ts).countP (inWindow 60 a) ≤ 5
    ∧ (∀ (rl : RateLimiter) (now : Int),
        rl.limit ≤ ((rl.attempts key).filter (fun t => now - rl.window < t)).length →
          (rl.Allow key now).1 = false ∧
          ((rl.Allow key now).2).attempts key
            = (rl.attempts key).filter (fun t => now - rl.window < t))
    ∧ (∀ (rl : RateLimiter) (now t0 : Int),
        t0 ∈ rl.attempts key → (∀ t ∈ rl.attempts key, t0 ≤ t) →
        (rl.attempts key).length ≤ rl.limit →
        t0 + rl.window < now → (rl.Allow key now).1 = true)
    ∧ (∀ ts' : List Int,
        ((finalAllow AuthRateLimiter key ts').attempts key).length ≤ 5) := by
  refine ⟨?_, ?_, ?_, ?_⟩
  · -- rolling-window bound
    obtain ⟨c, hc⟩ := exists_lowbound 60 ts
    have h := accepted_window_bound 5 60 a (by norm_num) ts [] c hts
      (by intro t ht; cases ht) hc (by simp)
    rw [acceptedRun_eq]
    have hempty : AuthRateLimiter.attempts key = [] := rfl
    have hlim : AuthRateLimiter.limit = 5 := rfl
    have hwin : AuthRateLimiter.window = 60 := rfl
    rw [hempty, hlim, hwin]
    simpa using h
  · -- a saturated window rejects without recording
    intro rl now h
    constructor
    · simp [RateLimiter.Allow, h]
    · simp [RateLimiter.Allow, h]
  · -- pruning the expired oldest attempt frees a slot
    intro rl now t0 ht0 hmin hlen hold
    rw [Allow_fst]
    have hdrop : ((rl.attempts key).filter (fun t => now - rl.window < t)).length
        < (rl.attempts key).length := by
      apply List.length_filter_lt_length_iff_exists.mpr
      exact ⟨t0, ht0, by simp only [decide_eq_true_eq]; omega⟩
    have : ¬ rl.limit ≤ ((rl.attempts key).filter (fun t => now - rl.window < t)).length := by
      omega
    simp [stepAllow, this]
  · -- a key never stores more than the limit
    intro ts'
    have h := finalAllow_attempts_le key ts' AuthRateLimiter (by simp [AuthRateLimiter, NewRateLimiter])
    simpa [AuthRateLimiter, NewRateLimiter] using h

/-- Witness for C1 at a concrete run: six calls inside one minute from one
address, a seventh after the window; the hypotheses hold by computation. -/
theorem C1_rate_limiter_rolling_window_witness :
    List.Sorted (· ≤ ·) ([0, 10, 20, 30, 40, 50, 70] : List Int)
    ∧ (acceptedRun AuthRateLimiter "1.2.3.4" [0, 10, 20, 30, 40, 50, 70]).countP
        (inWindow 60 (-1)) ≤ 5 :=
  ⟨by decide,
   (C1_rate_limiter_rolling_window "1.2.3.4" [0, 10, 20, 30, 40, 50, 70] (-1)
     (by decide)).1⟩

/-! ## Claim C3 — `parseRepoName` documented examples -/

/-- **C3.** `parseRepoName` satisfies the documented examples:
`"https://github.com/user/repo.git"` → `"repo"`,
`"git@github.com:user/repo.git"` → `"repo"`,
`"https://github.com/user/repo/"` → `"repo"`, `""` → `""`, and
`"https://"` → `""`. The final conjunct exhibits the stripping order (a
single trailing slash is removed before the `.git` suffix): a URL ending in
`".git/"` still resolves to the bare name. -/
theorem C3_parseRepoName_examples :
    parseRepoName "https://github.com/user/repo.git" = "repo"
    ∧ parseRepoName "git@github.com:user/repo.git" = "repo"
    ∧ parseRepoName "https://github.com/user/repo/" = "repo"
    ∧ parseRepoName "" = ""
    ∧ parseRepoName "https://" = ""
    ∧ parseRepoName "https://github.com/user/repo.git/" = "repo" := by
  refine ⟨by decide, by decide, by decide, by decide, by decide, by decide⟩

/-! ## Claim C2 — signup succeeds at most once per user store -/

lemma AuthC.handleSignup_closed (st : AuthState) (form : SignupForm)
    (parseOk : Bool) (ext : Ext) (h : 0 < st.users.length) :
    AuthC.handleSignup st form parseOk ext = (.errorMsg "a user already exists", st) := by
  simp [AuthC.handleSignup, h]

lemma WB.signup_rejects_when_user_exists (st : AuthState) (addr : String) (now : Int)
    (form : SignupForm) (ext : Ext) (h : 0 < st.users.length) :
    WB.handleSignup st addr now form ext
      = (.errorMsg "A user already exists. This is a single-user system.", st) := by
  simp [WB.handleSignup, h]

lemma AuthC.handleSignup_users_le (st : AuthState) (form : SignupForm)
    (parseOk : Bool) (ext : Ext) :
    ((AuthC.handleSignup st form parseOk ext).2).users.length
      ≤ max st.users.length 1 := by
  by_cases h : 0 < st.users.length
  · rw [AuthC.handleSignup_closed st form parseOk ext h]
    exact le_max_left _ _
  · have h0 : st.users.length = 0 := by omega
    simp only [AuthC.handleSignup, h, if_false, reduceIte]
    split_ifs <;> simp [h0]

lemma AuthC.runSignups_users_le (calls : List AuthC.SignupCall) :
    ∀ st : AuthState, st.users.length ≤ 1 →
      (AuthC.runSignups st calls).users.length ≤ 1 := by
  induction calls with
  | nil => intro st h; exact h
  | cons c cs ih =>
    intro st h
    apply ih
    have h2 := AuthC.handleSignup_users_le st c.form c.parseOk c.ext
    omega

/-- **C2.** After one signup succeeded (user count > 0), every subsequent
signup fails with the `AlreadyInitialized` message and leaves the state
(users, sessions, activities, limiter) untouched, regardless of the field
values and before any parsing, validation, rate limiting or user creation:
first conjunct for the `controllers/auth.go` revision, second for the
`controllers/workbench.go` revision, whose rate-limit check is also skipped
(the unchanged state contains the untouched limiter). Third conjunct: under
any sequence of signup requests the store never grows beyond one user, so at
most one user is ever created. -/
theorem C2_signup_single_user :
    (∀ (st : AuthState) (form : SignupForm) (parseOk : Bool) (ext : Ext),
      0 < st.users.length →
      AuthC.handleSignup st form parseOk ext
        = (.errorMsg "a user already exists", st))
    ∧ (∀ (st : AuthState) (addr : String) (now : Int) (form : SignupForm) (ext : Ext),
      0 < st.users.length →
      WB.handleSignup st addr now form ext
        = (.errorMsg "A user already exists. This is a single-user system.", st))
    ∧ (∀ (st : AuthState) (calls : List AuthC.SignupCall),
      st.users.length ≤ 1 → (AuthC.runSignups st calls).users.length ≤ 1) :=
  ⟨fun st form parseOk ext h => AuthC.handleSignup_closed st form parseOk ext h,
   fun st addr now form ext h => WB.signup_rejects_when_user_exists st addr now form ext h,
   fun st calls h => AuthC.runSignups_users_le calls st h⟩

/-- Witness for C2: a store that already holds one user rejects a fresh,
fully valid signup and stays unchanged. -/
theorem C2_signup_single_user_witness :
    0 < demoStOne.users.length
    ∧ AuthC.handleSignup demoStOne demoSignupForm true demoExt
        = (.errorMsg "a user already exists", demoStOne) :=
  ⟨by decide, C2_signup_single_user.1 demoStOne demoSignupForm true demoExt (by decide)⟩

/-! ## Claim C7 — signin does not enable user enumeration -/

lemma credSignin_eq_none_of_no_match (users : List User) (h p : String)
    (hnone : ∀ v ∈ users, v.handle ≠ h ∧ v.email ≠ h) :
    credSignin users h p = none := by
  unfold credSignin
  have hfind : users.find? (fun u => u.handle == h || u.email == h) = none := by
    rw [List.find?_eq_none]
    intro v hv
    have := hnone v hv
    simp only [Bool.or_eq_true, beq_iff_eq, not_or]
    exact ⟨this.1, this.2⟩
  rw [hfind]

lemma credSignin_eq_none_of_wrong_password (u : User) (h p : String)
    (hmatch : u.handle = h ∨ u.email = h) (hwrong : u.password ≠ p) :
    credSignin [u] h p = none := by
  unfold credSignin
  have hpred : (fun v : User => v.handle == h || v.email == h) u = true := by
    rcases hmatch with hm | hm <;> simp [hm]
  have hfind : List.find? (fun v : User => v.handle == h || v.email == h) [u] = some u := by
    simp [List.find?, hpred]
  rw [hfind]
  simp [hwrong]

lemma AuthC.handleSignin_invalid_credentials (st : AuthState) (addr : String)
    (now : Int) (f : SigninForm) (ext : Ext)
    (hallow : (st.limiter.Allow addr now).1 = true)
    (hh : goTrim (goToLower f.handle) ≠ "") (hp : f.password ≠ "")
    (hcred : credSignin st.users (goTrim (goToLower f.handle)) f.password = none) :
    (AuthC.handleSignin st addr now f true ext).1 = .errorMsg "invalid credentials" := by
  have hh' : (goTrim (goToLower f.handle) == "") = false := by
    simpa using hh
  have hp' : (f.password == "") = false := by simpa using hp
  simp [AuthC.handleSignin, hallow, hh', hp', hcred]

/-- **C7.** A signin with a handle matching no stored user and a signin with
an existing handle but a wrong password both render the very same
`"invalid credentials"` message (third conjunct: the two responses are
byte-for-byte equal), so the response does not reveal whether the handle
exists. Both scenarios pass the rate limiter and supply non-blank fields. -/
theorem C7_signin_uniform_invalid_credentials
    (st₁ st₂ : AuthState) (addr₁ addr₂ : String) (now₁ now₂ : Int)
    (f₁ f₂ : SigninForm) (ext₁ ext₂ : Ext) (u : User)
    (hallow₁ : (st₁.limiter.Allow addr₁ now₁).1 = true)
    (hallow₂ : (st₂.limiter.Allow addr₂ now₂).1 = true)
    (hh₁ : goTrim (goToLower f₁.handle) ≠ "") (hp₁ : f₁.password ≠ "")
    (hh₂ : goTrim (goToLower f₂.handle) ≠ "") (hp₂ : f₂.password ≠ "")
    (hnone : ∀ v ∈ st₁.users,
      v.handle ≠ goTrim (goToLower f₁.handle) ∧ v.email ≠ goTrim (goToLower f₁.handle))
    (hu : st₂.users = [u])
    (hmatch : u.handle = goTrim (goToLower f₂.handle)
      ∨ u.email = goTrim (goToLower f₂.handle))
    (hwrong : u.password ≠ f₂.password) :
    (AuthC.handleSignin st₁ addr₁ now₁ f₁ true ext₁).1
        = .errorMsg "invalid credentials"
    ∧ (AuthC.handleSignin st₂ addr₂ now₂ f₂ true ext₂).1
        = .errorMsg "invalid credentials"
    ∧ (AuthC.handleSignin st₁ addr₁ now₁ f₁ true ext₁).1
        = (AuthC.handleSignin st₂ addr₂ now₂ f₂ true ext₂).1 := by
  have h1 := AuthC.handleSignin_invalid_credentials st₁ addr₁ now₁ f₁ ext₁
    hallow₁ hh₁ hp₁ (credSignin_eq_none_of_no_match _ _ _ hnone)
  have h2 := AuthC.handleSignin_invalid_credentials st₂ addr₂ now₂ f₂ ext₂
    hallow₂ hh₂ hp₂ (by
      rw [hu]
      exact credSignin_eq_none_of_wrong_password u _ _ hmatch hwrong)
  exact ⟨h1, h2, by rw [h1, h2]⟩

/-- Witness for C7: an unknown handle against the empty store and the known
handle with a wrong password both yield the identical message. -/
theorem C7_signin_uniform_invalid_credentials_witness :
    (AuthC.handleSignin demoStEmpty "9.9.9.9" 0 ⟨"ghost", "pw"⟩ true demoExt).1
        = .errorMsg "invalid credentials"
    ∧ (AuthC.handleSignin demoStOne "9.9.9.9" 0 ⟨"ada", "wrong-pass"⟩ true demoExt).1
        = .errorMsg "invalid credentials" := by
  have h := C7_signin_uniform_invalid_credentials demoStEmpty demoStOne
    "9.9.9.9" "9.9.9.9" 0 0 ⟨"ghost", "pw"⟩ ⟨"ada", "wrong-pass"⟩
    demoExt demoExt demoUser
    (by decide) (by decide) (by decide) (by decide) (by decide) (by decide)
    (by decide) (by decide) (by decide) (by decide)
  exact ⟨h.1, h.2.1⟩

/-! ## Claim C10 — every signin consumes rate-limit quota -/

/-- Whatever branch a signin request takes, its only effect on the limiter
is the `Allow` call made before the credentials are looked at. -/
lemma AuthC.handleSignin_limiter (st : AuthState) (addr : String) (now : Int)
    (f : SigninForm) (p : Bool) (ext : Ext) :
    ((AuthC.handleSignin st addr now f p ext).2).limiter
      = (st.limiter.Allow addr now).2 := by
  unfold AuthC.handleSignin
  cases hcred : credSignin st.users (goTrim (goToLower f.handle)) f.password <;>
    by_cases h1 : (st.limiter.Allow addr now).1 = false <;>
    by_cases h2 : p = false <;>
    by_cases h3 : (goTrim (goToLower f.handle) == "" || f.password == "") = true <;>
    by_cases h4 : ext.sessionFails <;>
      simp [h1, h2, h3, h4, hcred]

lemma AuthC.handleSignin_rate_limited (st : AuthState) (addr : String)
    (now : Int) (f : SigninForm) (p : Bool) (ext : Ext)
    (h : (st.limiter.Allow addr now).1 = false) :
    (AuthC.handleSignin st addr now f p ext).1
      = .errorMsg "too many login attempts, please wait a minute" := by
  simp [AuthC.handleSignin, h]

/-- **C10.** The signin handler calls `Allow` (recording the attempt) before
checking credentials, so every request consumes quota whatever its outcome:
for any six signin requests from one client address whose timestamps are
nondecreasing and fit in one 60-second window, after the first five requests
all five attempts are recorded (first conjunct, independent of the requests'
outcomes), and the sixth is rejected as rate-limited (second conjunct) —
in particular even when the first five succeeded with valid credentials. -/
theorem C10_signin_quota_consumed_regardless_of_outcome
    (st : AuthState) (addr : String) (c₁ c₂ c₃ c₄ c₅ c₆ : AuthC.SigninCall)
    (hlim : st.limiter.limit = 5) (hwin : st.limiter.window = 60)
    (hempty : st.limiter.attempts addr = [])
    (h12 : c₁.now ≤ c₂.now) (h23 : c₂.now ≤ c₃.now) (h34 : c₃.now ≤ c₄.now)
    (h45 : c₄.now ≤ c₅.now) (h56 : c₅.now ≤ c₆.now)
    (hwd : c₆.now < c₁.now + 60) :
    ((AuthC.finalSignins st addr [c₁, c₂, c₃, c₄, c₅]).limiter.attempts addr)
      = [c₁.now, c₂.now, c₃.now, c₄.now, c₅.now]
    ∧ (AuthC.runSignins st addr [c₁, c₂, c₃, c₄, c₅, c₆]).getLast?
      = some (.errorMsg "too many login attempts, please wait a minute") := by
  -- an under-quota request is admitted and appends its timestamp
  have step : ∀ (s : AuthState) (c : AuthC.SigninCall) (l : List Int),
      s.limiter.limit = 5 → s.limiter.window = 60 → s.limiter.attempts addr = l →
      (l.filter (fun t => c.now - 60 < t)).length < 5 →
      ((AuthC.handleSignin s addr c.now c.form c.parseOk c.ext).2).limiter.attempts addr
          = l.filter (fun t => c.now - 60 < t) ++ [c.now]
      ∧ ((AuthC.handleSignin s addr c.now c.form c.parseOk c.ext).2).limiter.limit = 5
      ∧ ((AuthC.handleSignin s addr c.now c.form c.parseOk c.ext).2).limiter.window = 60 := by
    intro s c l hl hw ha hlt
    have hnotfull : ¬ (5 : Nat) ≤ (l.filter (fun t => c.now - 60 < t)).length :=
      Nat.not_le.mpr hlt
    have hlimiter := AuthC.handleSignin_limiter s addr c.now c.form c.parseOk c.ext
    refine ⟨?_, ?_, ?_⟩
    · rw [hlimiter, Allow_attempts_self, hl, hw, ha]
      simp [stepAllow, hnotfull]
    · rw [hlimiter, Allow_limit, hl]
    · rw [hlimiter, Allow_window, hw]
  -- chained timestamp bounds
  have b1 : c₂.now - 60 < c₁.now := by omega
  have b2 : c₃.now - 60 < c₁.now := by omega
  have b3 : c₃.now - 60 < c₂.now := by omega
  have b4 : c₄.now - 60 < c₁.now := by omega
  have b5 : c₄.now - 60 < c₂.now := by omega
  have b6 : c₄.now - 60 < c₃.now := by omega
  have b7 : c₅.now - 60 < c₁.now := by omega
  have b8 : c₅.now - 60 < c₂.now := by omega
  have b9 : c₅.now - 60 < c₃.now := by omega
  have b10 : c₅.now - 60 < c₄.now := by omega
  have b11 : c₆.now - 60 < c₁.now := by omega
  have b12 : c₆.now - 60 < c₂.now := by omega
  have b13 : c₆.now - 60 < c₃.now := by omega
  have b14 : c₆.now - 60 < c₄.now := by omega
  have b15 : c₆.now - 60 < c₅.now := by omega
  -- the five admitted states
  obtain ⟨ha₁, hl₁, hw₁⟩ := step st c₁ [] hlim hwin hempty (by simp)
  set s₁ := (AuthC.handleSignin st addr c₁.now c₁.form c₁.parseOk c₁.ext).2 with hs₁
  have ha₁' : s₁.limiter.attempts addr = [c₁.now] := by simpa using ha₁
  obtain ⟨ha₂, hl₂, hw₂⟩ := step s₁ c₂ [c₁.now] hl₁ hw₁ ha₁' (by simp [b1])
  set s₂ := (AuthC.handleSignin s₁ addr c₂.now c₂.form c₂.parseOk c₂.ext).2 with hs₂
  have ha₂' : s₂.limiter.attempts addr = [c₁.now, c₂.now] := by
    simpa [b1] using ha₂
  obtain ⟨ha₃, hl₃, hw₃⟩ := step s₂ c₃ [c₁.now, c₂.now] hl₂ hw₂ ha₂'
    (by simp [b2, b3])
  set s₃ := (AuthC.handleSignin s₂ addr c₃.now c₃.form c₃.parseOk c₃.ext).2 with hs₃
  have ha₃' : s₃.limiter.attempts addr = [c₁.now, c₂.now, c₃.now] := by
    simpa [b2, b3] using ha₃
  obtain ⟨ha₄, hl₄, hw₄⟩ := step s₃ c₄ [c₁.now, c₂.now, c₃.now] hl₃ hw₃ ha₃'
    (by simp [b4, b5, b6])
  set s₄ := (AuthC.handleSignin s₃ addr c₄.now c₄.form c₄.parseOk c₄.ext).2 with hs₄
  have ha₄' : s₄.limiter.attempts addr = [c₁.now, c₂.now, c₃.now, c₄.now] := by
    simpa [b4, b5, b6] using ha₄
  obtain ⟨ha₅, hl₅, hw₅⟩ := step s₄ c₅ [c₁.now, c₂.now, c₃.now, c₄.now] hl₄ hw₄ ha₄'
    (by simp [b7, b8, b9, b10])
  set s₅ := (AuthC.handleSignin s₄ addr c₅.now c₅.form c₅.parseOk c₅.ext).2 with hs₅
  have ha₅' : s₅.limiter.attempts addr = [c₁.now, c₂.now, c₃.now, c₄.now, c₅.now] := by
    simpa [b7, b8, b9, b10] using ha₅
  -- the sixth request finds five attempts inside the window and is rejected
  have hreject : (s₅.limiter.Allow addr c₆.now).1 = false := by
    rw [Allow_fst, hl₅, hw₅, ha₅']
    simp [stepAllow, b11, b12, b13, b14, b15]
  have hfinal : AuthC.finalSignins st addr [c₁, c₂, c₃, c₄, c₅] = s₅ := by
    simp only [AuthC.finalSignins, hs₁, hs₂, hs₃, hs₄, hs₅]
  have hlast := AuthC.handleSignin_rate_limited s₅ addr c₆.now c₆.form c₆.parseOk
    c₆.ext hreject
  constructor
  · rw [hfinal]; exact ha₅'
  · simp only [AuthC.runSignins, hs₁, hs₂, hs₃, hs₄, hs₅]
    rw [List.getLast?_cons_cons, List.getLast?_cons_cons, List.getLast?_cons_cons,
      List.getLast?_cons_cons, List.getLast?_cons_cons, List.getLast?_singleton]
    rw [hlast]

/-- Witness for C10: six perfectly valid signin attempts (correct
credentials) within one minute; the sixth is rate-limited anyway. -/
theorem C10_signin_quota_consumed_witness :
    ((AuthC.finalSignins demoStOne "7.7.7.7"
        [⟨0, ⟨"ada", "correct-horse"⟩, true, demoExt⟩,
         ⟨5, ⟨"ada", "correct-horse"⟩, true, demoExt⟩,
         ⟨10, ⟨"ada", "correct-horse"⟩, true, demoExt⟩,
         ⟨15, ⟨"ada", "correct-horse"⟩, true, demoExt⟩,
         ⟨20, ⟨"ada", "correct-horse"⟩, true, demoExt⟩]).limiter.attempts "7.7.7.7")
      = [0, 5, 10, 15, 20]
    ∧ (AuthC.runSignins demoStOne "7.7.7.7"
        [⟨0, ⟨"ada", "correct-horse"⟩, true, demoExt⟩,
         ⟨5, ⟨"ada", "correct-horse"⟩, true, demoExt⟩,
         ⟨10, ⟨"ada", "correct-horse"⟩, true, demoExt⟩,
         ⟨15, ⟨"ada", "correct-horse"⟩, true, demoExt⟩,
         ⟨20, ⟨"ada", "correct-horse"⟩, true, demoExt⟩,
         ⟨25, ⟨"ada", "correct-horse"⟩, true, demoExt⟩]).getLast?
      = some (.errorMsg "too many login attempts, please wait a minute") :=
  C10_signin_quota_consumed_regardless_of_outcome demoStOne "7.7.7.7"
    ⟨0, ⟨"ada", "correct-horse"⟩, true, demoExt⟩
    ⟨5, ⟨"ada", "correct-horse"⟩, true, demoExt⟩
    ⟨10, ⟨"ada", "correct-horse"⟩, true, demoExt⟩
    ⟨15, ⟨"ada", "correct-horse"⟩, true, demoExt⟩
    ⟨20, ⟨"ada", "correct-horse"⟩, true, demoExt⟩
    ⟨25, ⟨"ada", "correct-horse"⟩, true, demoExt⟩
    (by decide) (by decide) (by decide) (by decide) (by decide) (by decide)
    (by decide) (by decide) (by decide)

/-! ## Claim C8 — signup is rate limited (workbench revision) -/

lemma WB.handleSignup_limiter (st : AuthState) (addr : String) (now : Int)
    (form : SignupForm) (ext : Ext) (husers : st.users = []) :
    ((WB.handleSignup st addr now form ext).2).limiter
      = (st.limiter.Allow (addr ++ ":signup") now).2 := by
  have h0 : ¬ 0 < st.users.length := by simp [husers]
  unfold WB.handleSignup
  by_cases h1 : (st.limiter.Allow (addr ++ ":signup") now).1 = false <;>
    by_cases h2 : (goTrim form.name == "" || goTrim (goToLower form.handle) == ""
      || goTrim (goToLower form.email) == "" || form.password == "") = true <;>
    by_cases h3 : ext.signupFails <;>
    by_cases h4 : ext.tokenFails <;>
      simp [h0, h1, h2, h3, h4]

lemma WB.signin_limiter_update (st : AuthState) (addr : String) (now : Int)
    (f : SigninForm) (ext : Ext) :
    ((WB.handleSignin st addr now f ext).2).limiter
      = (st.limiter.Allow (addr ++ ":signin") now).2 := by
  unfold WB.handleSignin
  cases hcred : credSignin st.users (goTrim (goToLower f.handle)) f.password <;>
    by_cases h1 : (st.limiter.Allow (addr ++ ":signin") now).1 = false <;>
    by_cases h2 : (goTrim (goToLower f.handle) == "" || f.password == "") = true <;>
    by_cases h3 : ext.tokenFails <;>
      simp [h1, h2, h3, hcred]

/-- **C8.** In the `controllers/workbench.go` revision, signup fails with the
rate-limit message whenever the limiter rejects the key
`clientIP + ":signup"` (first conjunct: with an empty user store, a limiter
rejection produces exactly the rate-limited response and the only state
change is the limiter's own pruning — in particular no user is created);
signup attempts are tracked by the same global limiter exactly as signin
attempts are (second and third conjunct: the limiter after either handler is
`Allow` applied to the action-suffixed client key). -/
theorem C8_signup_rate_limited
    (st : AuthState) (addr : String) (now : Int) (form : SignupForm) (ext : Ext)
    (husers : st.users = []) :
    ((st.limiter.Allow (addr ++ ":signup") now).1 = false →
      WB.handleSignup st addr now form ext
        = (.errorMsg "Too many attempts. Please wait a minute and try again.",
           { st with limiter := (st.limiter.Allow (addr ++ ":signup") now).2 }))
    ∧ ((WB.handleSignup st addr now form ext).2).limiter
        = (st.limiter.Allow (addr ++ ":signup") now).2
    ∧ (∀ (st' : AuthState) (f : SigninForm) (ext' : Ext),
        ((WB.handleSignin st' addr now f ext').2).limiter
          = (st'.limiter.Allow (addr ++ ":signin") now).2) := by
  refine ⟨?_, WB.handleSignup_limiter st addr now form ext husers,
    fun st' f ext' => WB.signin_limiter_update st' addr now f ext'⟩
  intro hreject
  have h0 : ¬ 0 < st.users.length := by simp [husers]
  simp [WB.handleSignup, h0, hreject]

/-- Witness for C8: an empty store whose limiter already holds five signup
attempts from the address inside the window rejects a valid signup as
rate-limited, creating no user. -/
theorem C8_signup_rate_limited_witness :
    (demoStBusy.limiter.Allow ("1.1.1.1" ++ ":signup") 30).1 = false
    ∧ WB.handleSignup demoStBusy "1.1.1.1" 30 demoSignupForm demoExt
      = (.errorMsg "Too many attempts. Please wait a minute and try again.",
         { demoStBusy with
             limiter := (demoStBusy.limiter.Allow ("1.1.1.1" ++ ":signup") 30).2 }) :=
  ⟨by decide,
   (C8_signup_rate_limited demoStBusy "1.1.1.1" 30 demoSignupForm demoExt rfl).1
     (by decide)⟩

/-! ## Claim C9 — clone rejects an empty (derived) name -/

/-- **C9.** When the name — after derivation from the URL where the given
name is blank — is empty, `CloneRepository` fails with the validation
message and neither executes any container command nor touches the
database (empty trace, unchanged record list, no activity). -/
theorem C9_clone_empty_name_validation
    (exec : String → String × Bool) (insertOk : Bool) (db : List Repository)
    (url name : String)
    (hname : (if name == "" then parseRepoName url else name) = "") :
    CloneRepository exec insertOk db url name
      = { err := some "repository name cannot be empty", db := db,
          trace := [], activity := none } := by
  have hname' : (if name = "" then parseRepoName url else name) = "" := by
    simpa using hname
  simp [CloneRepository, hname']

/-- Witness for C9: a blank name with a URL from which no segment can be
derived (`"https://"`) short-circuits before container and database. -/
theorem C9_clone_empty_name_validation_witness :
    ((if ("" : String) == "" then parseRepoName "https://" else "") = "")
    ∧ CloneRepository execAllOk true [demoRepo] "https://" ""
      = { err := some "repository name cannot be empty", db := [demoRepo],
          trace := [], activity := none } :=
  ⟨by decide,
   C9_clone_empty_name_validation execAllOk true [demoRepo] "https://" "" (by decide)⟩

/-! ## Claim C4 — clone rejects case-insensitive duplicates untouched -/

lemma goToLower_eq_empty_iff (s : String) : goToLower s = "" ↔ s = "" := by
  constructor
  · intro h
    have h2 := congrArg String.data h
    simp only [goToLower, String.data] at h2
    have h3 : s.toList = [] := by simpa using h2
    apply String.ext
    simpa [String.toList] using h3
  · intro h; rw [h]; rfl

/-- **C4.** Whenever the (given or derived) clone name matches an existing
repository record case-insensitively, `CloneRepository` fails with the
duplicate-name message naming the colliding record, executes no container
command and writes nothing to the database (empty trace, record list
returned unchanged, no activity). -/
theorem C4_clone_duplicate_name
    (exec : String → String × Bool) (insertOk : Bool) (db : List Repository)
    (url name : String) (r : Repository) (hr : r ∈ db)
    (hmatch : goToLower r.name
      = goToLower (if name == "" then parseRepoName url else name))
    (hne : (if name == "" then parseRepoName url else name) ≠ "") :
    ∃ ex ∈ db,
      goToLower ex.name
        = goToLower (if name == "" then parseRepoName url else name)
      ∧ CloneRepository exec insertOk db url name
        = { err := some ("a repository named '" ++ ex.name ++ "' already exists"),
            db := db, trace := [], activity := none } := by
  have hbe : ((if name == "" then parseRepoName url else name) == "") = false := by
    simpa using hne
  have hsome : (db.find? (fun r' => goToLower r'.name
      == goToLower (if name == "" then parseRepoName url else name))).isSome := by
    rw [List.find?_isSome]
    exact ⟨r, hr, by simp [hmatch]⟩
  obtain ⟨ex, hex⟩ := Option.isSome_iff_exists.mp hsome
  have hexmatch : goToLower ex.name
      = goToLower (if name == "" then parseRepoName url else name) := by
    have := List.find?_some hex
    simpa using this
  have hmem : ex ∈ db := List.mem_of_find?_eq_some hex
  have hexne : ex.name ≠ "" := by
    intro h0
    apply hne
    rw [h0] at hexmatch
    have : goToLower (if name == "" then parseRepoName url else name) = "" := by
      rw [← hexmatch]; rfl
    exact (goToLower_eq_empty_iff _).mp this
  refine ⟨ex, hmem, hexmatch, ?_⟩
  simp only [CloneRepository, hbe, Bool.false_eq_true, if_false, reduceIte, hex, hexne,
    ne_eq, not_false_eq_true]

/-- Witness for C4: cloning `"Demo"` while `"demo"` exists fails with the
duplicate message, no container command, no database write. -/
theorem C4_clone_duplicate_name_witness :
    demoRepo ∈ [demoRepo]
    ∧ CloneRepository execAllOk true [demoRepo]
        "https://github.com/other/Demo.git" "Demo"
      = { err := some "a repository named 'demo' already exists",
          db := [demoRepo], trace := [], activity := none } := by
  obtain ⟨ex, hmem, hmatch, heq⟩ := C4_clone_duplicate_name execAllOk true [demoRepo]
    "https://github.com/other/Demo.git" "Demo" demoRepo (by decide) (by decide)
    (by decide)
  have hx : ex = demoRepo := List.mem_singleton.mp hmem
  rw [hx] at heq
  exact ⟨List.mem_singleton_self _, heq⟩

/-! ## Claim C5 — delete touches the filesystem before the database -/

/-- **C5.** `DeleteRepository` always issues the filesystem removal first
(third conjunct: in every found case the trace is exactly the `rm`
command, issued before any database decision); when the removal fails the
result is the delete-failure message with the record list unchanged and the
record still queryable by name (first conjunct); and the record list changes
only if the filesystem removal succeeded (second conjunct). -/
theorem C5_delete_filesystem_before_database
    (exec : String → String × Bool) (deleteOk : Bool) (db : List Repository)
    (name : String) (repo : Repository)
    (hfind : db.find? (fun r => r.name == name) = some repo) :
    ((exec ("rm -rf " ++ repo.localPath)).2 = false →
      DeleteRepository exec deleteOk db name
        = { err := some "failed to delete repository files", db := db,
            trace := ["rm -rf " ++ repo.localPath], activity := none }
      ∧ (DeleteRepository exec deleteOk db name).db.find?
          (fun r => r.name == name) = some repo)
    ∧ ((DeleteRepository exec deleteOk db name).db ≠ db →
        (exec ("rm -rf " ++ repo.localPath)).2 = true)
    ∧ (DeleteRepository exec deleteOk db name).trace
        = ["rm -rf " ++ repo.localPath] := by
  refine ⟨?_, ?_, ?_⟩
  · intro hrm
    have heq : DeleteRepository exec deleteOk db name
        = { err := some "failed to delete repository files", db := db,
            trace := ["rm -rf " ++ repo.localPath], activity := none } := by
      simp [DeleteRepository, hfind, hrm]
    refine ⟨heq, ?_⟩
    rw [heq]
    exact hfind
  · intro hne
    by_cases hrm : (exec ("rm -rf " ++ repo.localPath)).2 = true
    · exact hrm
    · exfalso
      apply hne
      have hrm' : (exec ("rm -rf " ++ repo.localPath)).2 = false := by
        simpa using hrm
      simp [DeleteRepository, hfind, hrm']
  · by_cases hrm : (exec ("rm -rf " ++ repo.localPath)).2 = false <;>
      by_cases hdel : deleteOk = false <;>
        simp [DeleteRepository, hfind, hrm, hdel]

/-- Witness for C5: a failing `rm -rf` leaves the record queryable. -/
theorem C5_delete_filesystem_before_database_witness :
    ([demoRepo].find? (fun r => r.name == "demo") = some demoRepo)
    ∧ (execRmFails ("rm -rf " ++ demoRepo.localPath)).2 = false
    ∧ DeleteRepository execRmFails true [demoRepo] "demo"
        = { err := some "failed to delete repository files", db := [demoRepo],
            trace := ["rm -rf " ++ demoRepo.localPath], activity := none } := by
  have h := (C5_delete_filesystem_before_database execRmFails true [demoRepo]
    "demo" demoRepo (by decide)).1 (by decide)
  exact ⟨by decide, by decide, h.1⟩

/-! ## Claim C6 — pull on a missing directory re-clones -/

lemma reclone_desc_ne (n : String) :
    ("Re-cloned missing repository " ++ n) ≠ ("Synced repository " ++ n) := by
  intro h
  have h2 := congrArg String.data h
  rw [String.data_append, String.data_append] at h2
  injection h2 with h3 _
  exact absurd h3 (by decide)

/-- **C6 as stated is false.** At a concrete repository whose local
directory is missing (the container reports no directory, the re-clone
succeeds), the recorded activity's *type* equals the type a normal pull
records — `"repo_pull"` in both cases — so the re-clone activity type is
not distinct from a normal pull's. -/
theorem C6_pull_reclone_type_counterexample :
    (PullRepository execAllOk [demoRepo] "demo").err = none
    ∧ ((PullRepository execAllOk [demoRepo] "demo").activity.map
        (fun a => a.type)) = some "repo_pull"
    ∧ ((PullRepository execDirExists [demoRepo] "demo").activity.map
        (fun a => a.type)) = some "repo_pull"
    ∧ ((PullRepository execAllOk [demoRepo] "demo").activity.map
        (fun a => a.type))
      = ((PullRepository execDirExists [demoRepo] "demo").activity.map
        (fun a => a.type)) :=
  ⟨by decide, by decide, by decide, by decide⟩

/-- **C6 (amended).** For every repository whose database record exists but
whose local directory is missing in the container, pull re-clones from the
stored URL into the stored path instead of failing, returns success to the
caller when the re-clone succeeds, and records an activity entry whose
*description* (`"Re-cloned missing repository <name>"`) is distinct from the
one a normal pull records (`"Synced repository <name>"`); the activity
*type* is `"repo_pull"` in both cases. -/
theorem C6_pull_reclone_amended
    (exec : String → String × Bool) (db : List Repository) (repoName : String)
    (repo : Repository)
    (hfind : db.find? (fun r => r.name == repoName) = some repo)
    (hmissing : goTrim (exec ("test -d " ++ repo.localPath ++ " && echo exists")).1
      ≠ "exists")
    (hclone : (exec ("git clone " ++ repo.url ++ " " ++ repo.localPath ++ " 2>&1")).2
      = true) :
    PullRepository exec db repoName
      = { err := none, db := db,
          trace := ["test -d " ++ repo.localPath ++ " && echo exists",
                    "mkdir -p /home/coder/repos",
                    "git clone " ++ repo.url ++ " " ++ repo.localPath ++ " 2>&1"],
          activity := some ⟨"repo_pull", repo.name,
            "Re-cloned missing repository " ++ repoName, "System"⟩ }
    ∧ ("Re-cloned missing repository " ++ repoName : String)
        ≠ "Synced repository " ++ repoName := by
  refine ⟨?_, reclone_desc_ne repoName⟩
  simp [PullRepository, hfind, hmissing, hclone]

/-- Witness for the amended C6: a record whose directory the container
reports missing is re-cloned, the caller sees success, and the distinct
re-clone description is logged. -/
theorem C6_pull_reclone_amended_witness :
    (PullRepository execAllOk [demoRepo] "demo").err = none
    ∧ (PullRepository execAllOk [demoRepo] "demo").activity
      = some ⟨"repo_pull", "demo", "Re-cloned missing repository demo", "System"⟩ := by
  have h := C6_pull_reclone_amended execAllOk [demoRepo] "demo" demoRepo
    (by decide) (by decide) (by decide)
  rw [h.1]
  exact ⟨rfl, by decide⟩

end Workbench
